import Mathlib

/-!
Shallow embedding of the ingestion-and-aggregation pipeline of `src/main.py`
(a Telegram group-message logger backed by MongoDB).

The embedding follows the source:
* `Msg`, `Chat`, `User`, `Update` mirror the fields of the telegram library
  objects that `main.py` reads (truthiness of optional strings is modelled
  explicitly, matching Python's `or`).
* `DB` models the three Mongo collections: `tg_messages` (unique index on
  `(chat_id, msg_id)`), `tg_user_stats` (unique on `(chat_id, user_id)`),
  and the `tg_meta` singleton `poll_offset` register.
* `save_body` is the body of `save_message_to_mongo` up to its `try`;
  raised store errors are values of `SaveErr` carrying the partial state,
  and `save_message_to_mongo` is the `try/except` wrapper that swallows
  them.  `Fault` injects the store-level failures (`PyMongoError`) that
  the code catches; `Fault.ok` is normal operation.
* `processBatch` is the body of `poll_loop`'s `if updates:` block for one
  successful fetch: it advances the in-memory offset, persists it via
  `set_offset`, then iterates the updates, handling `/start` and `/stats`
  commands before calling `save_message_to_mongo` on each update.
  The emitted `Effect` trace records, in program order, the cursor
  persistence, each outbound reply, and each attempted save.
* The derived `iso` display field of a message document (a formatting of
  `ts`) is omitted; it carries no information not already in `ts`.
-/

/-- A chat as read from `update.effective_chat`: `chat.id` and `chat.type`. -/
structure Chat where
  id : Int
  type : String
deriving DecidableEq

/-- A user as read from `update.effective_user`; `username` is `none` when the
platform reports no username (Python `None`). -/
structure User where
  id : Int
  username : Option String
  full_name : String
deriving DecidableEq

/-- A message as read from `update.message`.  The six service flags model the
truthiness of `new_chat_members`, `left_chat_member`, `pinned_message`,
`group_chat_created`, `supergroup_chat_created`, `channel_chat_created`.
`date` is the epoch-seconds timestamp, `none` when the message has no date. -/
structure Msg where
  message_id : Int
  date : Option Int
  text : Option String
  caption : Option String
  new_chat_members : Bool
  left_chat_member : Bool
  pinned_message : Bool
  group_chat_created : Bool
  supergroup_chat_created : Bool
  channel_chat_created : Bool
deriving DecidableEq

/-- A raw update from the transport. `message = none` models an update that
carries no actionable message (Python `update.message` falsy). -/
structure Update where
  update_id : Int
  message : Option Msg
  effective_chat : Chat
  effective_user : User
deriving DecidableEq

/-- Python truthiness of an optional string: `None` and `""` are falsy. -/
def strTruthy : Option String → Bool
  | none => false
  | some s => s ≠ ""

/-- Python `a or b` for an optional string `a` and a string fallback `b`. -/
def strOr (a : Option String) (b : String) : String :=
  match a with
  | none => b
  | some s => if s = "" then b else s

/-- Python `s.strip()`: drop leading and trailing whitespace (an executable
translation working on the character list). -/
def pyStrip (s : String) : String :=
  ⟨((s.data.dropWhile Char.isWhitespace).reverse.dropWhile
      Char.isWhitespace).reverse⟩

/-- `safe_text(msg)` from the source: `msg.text or msg.caption or ""`,
with `""` for a falsy `msg`. -/
def safe_text (msg : Option Msg) : String :=
  match msg with
  | none => ""
  | some m => strOr m.text (strOr m.caption "")

/-- `is_service_message(msg)` from the source: any of the six service flags. -/
def is_service_message (m : Msg) : Bool :=
  m.new_chat_members || m.left_chat_member || m.pinned_message ||
  m.group_chat_created || m.supergroup_chat_created || m.channel_chat_created

/-- `is_group_chat(chat_type)` from the source. -/
def is_group_chat (chat_type : String) : Bool :=
  chat_type = "group" || chat_type = "supergroup"

/-- A document of the `tg_messages` collection, as built in
`save_message_to_mongo` (the derived `iso` display string is omitted). -/
structure MsgDoc where
  chat_id : Int
  user_id : Int
  username : String
  full_name : String
  ts : Int
  text : String
  msg_id : Int
  chat_type : String
deriving DecidableEq

/-- A document of the `tg_user_stats` collection (the ActorAggregate). -/
structure UserStat where
  chat_id : Int
  user_id : Int
  username : String
  full_name : String
  first_seen : Int
  last_seen : Int
  msg_count : Nat
deriving DecidableEq

/-- The persistent store: the `tg_messages` list (unique on
`(chat_id, msg_id)`), the `tg_user_stats` list (unique on
`(chat_id, user_id)`), and the `poll_offset` value of `tg_meta`. -/
structure DB where
  messages : List MsgDoc
  userstats : List UserStat
  meta_offset : Option Int
deriving DecidableEq

/-- `get_offset()` from the source: read the `poll_offset` register. -/
def get_offset (db : DB) : Option Int :=
  db.meta_offset

/-- `set_offset(value)` from the source: upsert the `poll_offset` register. -/
def set_offset (db : DB) (value : Int) : DB :=
  { db with meta_offset := some value }

/-- Whether the messages collection already holds a row with the unique key
`(chat_id, msg_id)` — what the hard dedupe index checks at insert time. -/
def hasKey (db : DB) (c m : Int) : Bool :=
  db.messages.any fun d => d.chat_id = c ∧ d.msg_id = m

/-- The `$set`/`$inc` arm of the `userstats_col.update_one`: refresh display
fields and `last_seen`, increment `msg_count`. -/
def applyUpsert (s : UserStat) (uname fname : String) (ts : Int) : UserStat :=
  { s with username := uname, full_name := fname, last_seen := ts,
           msg_count := s.msg_count + 1 }

/-- The `userstats_col.update_one(..., upsert=True)`: atomically update the
row with key `(c, uid)` if present (the unique index guarantees at most one),
else insert a fresh row with `first_seen = last_seen = ts`, `msg_count = 1`
(the `$setOnInsert` arm). -/
def upsertUserStat (l : List UserStat) (c uid : Int) (uname fname : String)
    (ts : Int) : List UserStat :=
  match l with
  | [] => [{ chat_id := c, user_id := uid, username := uname,
             full_name := fname, first_seen := ts, last_seen := ts,
             msg_count := 1 }]
  | s :: rest =>
    if s.chat_id = c ∧ s.user_id = uid then
      applyUpsert s uname fname ts :: rest
    else
      s :: upsertUserStat rest c uid uname fname ts

/-- A store-level error raised inside `save_message_to_mongo`'s `try`:
`dup` is `DuplicateKeyError`, `py` is any other `PyMongoError`.  The carried
`DB` is the state at the moment the error is raised (effects already applied
stay applied, as in Mongo). -/
inductive SaveErr where
  | dup (db : DB)
  | py (db : DB)
deriving DecidableEq

/-- Injected store failure for one event: `ok` is normal operation,
`insertFail` a `PyMongoError` raised by `messages_col.insert_one`,
`upsertFail` one raised by `userstats_col.update_one` after a successful
insert. -/
inductive Fault where
  | ok
  | insertFail
  | upsertFail
deriving DecidableEq

/-- The message document built in `save_message_to_mongo` for a storable
update (`now` is `int(time.time())`, the fallback when `msg.date` is falsy). -/
def mkDoc (upd : Update) (m : Msg) (now : Int) : MsgDoc :=
  { chat_id := upd.effective_chat.id
  , user_id := upd.effective_user.id
  , username := strOr upd.effective_user.username ""
  , full_name := pyStrip upd.effective_user.full_name
  , ts := m.date.getD now
  , text := safe_text (some m)
  , msg_id := m.message_id
  , chat_type := upd.effective_chat.type }

/-- The body of `save_message_to_mongo` inside its `try`: early-return on a
missing message, a service message, or a non-group chat; then attempt the
unique-index insert (raising `DuplicateKeyError` on a key collision) and the
aggregate upsert.  Injected faults raise `PyMongoError` at the corresponding
store call. -/
def save_body (db : DB) (upd : Update) (now : Int) (f : Fault) :
    Except SaveErr DB :=
  match upd.message with
  | none => Except.ok db
  | some m =>
    if is_service_message m then Except.ok db
    else if ¬ is_group_chat upd.effective_chat.type then Except.ok db
    else
      let doc := mkDoc upd m now
      if f = Fault.insertFail then Except.error (SaveErr.py db)
      else if hasKey db doc.chat_id doc.msg_id then
        Except.error (SaveErr.dup db)
      else
        let db1 : DB := { db with messages := db.messages ++ [doc] }
        if f = Fault.upsertFail then Except.error (SaveErr.py db1)
        else Except.ok { db1 with
          userstats := upsertUserStat db1.userstats doc.chat_id doc.user_id
            doc.username doc.full_name doc.ts }

/-- `save_message_to_mongo(update)` with its `try/except`: a
`DuplicateKeyError` is a silent no-op, any other store error is logged and
swallowed; the function never propagates an exception. -/
def save_message_to_mongo (db : DB) (upd : Update) (now : Int) (f : Fault) :
    DB :=
  match save_body db upd now f with
  | Except.ok d => d
  | Except.error (SaveErr.dup d) => d
  | Except.error (SaveErr.py d) => d

/-- The numbers interpolated into the `/stats` reply text by `reply_stats`. -/
structure Stats where
  total_msgs : Nat
  total_chats : Nat
  total_users : Nat
  chat_msgs : Nat
  chat_users : Nat
deriving DecidableEq

/-- `reply_stats(chat_id)` from the source: global counts over both
collections plus this chat's message count and user count. -/
def reply_stats (db : DB) (chat_id : Int) : Stats :=
  { total_msgs := db.messages.length
  , total_chats := (db.messages.map (fun d => d.chat_id)).dedup.length
  , total_users := (db.userstats.map (fun s => s.user_id)).dedup.length
  , chat_msgs := (db.messages.filter (fun d => d.chat_id = chat_id)).length
  , chat_users := (db.userstats.filter (fun s => s.chat_id = chat_id)).length }

/-- An outbound `bot.send_message` performed by the dispatcher. -/
inductive Reply where
  | startMsg (chat_id : Int)
  | statsMsg (chat_id : Int) (s : Stats)
deriving DecidableEq

/-- The command block of `poll_loop` for one update: when the update has a
truthy message text, strip it and answer `/start` or `/stats` (the `/stats`
numbers are read from the store as it stands before this update is saved). -/
def commandReplies (db : DB) (upd : Update) : List Reply :=
  match upd.message with
  | none => []
  | some m =>
    if strTruthy m.text then
      let txt := pyStrip (strOr m.text "")
      if txt = "/start" then [Reply.startMsg upd.effective_chat.id]
      else if txt = "/stats" then
        [Reply.statsMsg upd.effective_chat.id
          (reply_stats db upd.effective_chat.id)]
      else []
    else []

/-- An observable effect of batch processing, in program order. -/
inductive Effect where
  | setOffset (v : Int)
  | reply (r : Reply)
  | saveAttempt (update_id : Int)
deriving DecidableEq

/-- The per-update loop of `poll_loop`: for each update, handle commands,
then call `save_message_to_mongo`.  One `Fault` per update is consumed from
`fs` (`Fault.ok` when `fs` runs out). -/
def processEvents (db : DB) (upds : List Update) (now : Int)
    (fs : List Fault) : DB × List Effect :=
  match upds with
  | [] => (db, [])
  | u :: us =>
    let f := fs.headD Fault.ok
    let reps := commandReplies db u
    let db1 := save_message_to_mongo db u now f
    let rest := processEvents db1 us now fs.tail
    (rest.1, reps.map Effect.reply ++ [Effect.saveAttempt u.update_id]
               ++ rest.2)

/-- The in-memory polling state: the working `offset` variable and the store. -/
structure PollState where
  offset : Option Int
  db : DB
deriving DecidableEq

/-- The `if updates:` block of `poll_loop` for one successful fetch: if the
batch is empty nothing happens; otherwise set the working offset to the last
update's `update_id + 1`, persist it with `set_offset`, then run the
per-update loop. -/
def processBatch (st : PollState) (updates : List Update) (now : Int)
    (fs : List Fault) : PollState × List Effect :=
  match updates.getLast? with
  | none => (st, [])
  | some lastu =>
    let newOff := lastu.update_id + 1
    let db0 := set_offset st.db newOff
    let res := processEvents db0 updates now fs
    (⟨some newOff, res.1⟩,
      Effect.setOffset newOff :: res.2)

/-- Whether the dispatcher stores this update at all: a present message that
is not a service message, in a group or supergroup chat. -/
def storable (u : Update) : Bool :=
  match u.message with
  | none => false
  | some m => !is_service_message m && is_group_chat u.effective_chat.type

/-- Number of message rows with the unique key `(c, m)`. -/
def rowsWithKey (db : DB) (c m : Int) : Nat :=
  db.messages.countP fun d => d.chat_id = c ∧ d.msg_id = m

/-- Number of message rows for the actor pair `(c, uid)`. -/
def rowsForPair (db : DB) (c uid : Int) : Nat :=
  db.messages.countP fun d => d.chat_id = c ∧ d.user_id = uid

/-- Total `msg_count` over aggregate rows with key `(c, uid)` (with the
unique index there is at most one such row). -/
def aggTotal (l : List UserStat) (c uid : Int) : Nat :=
  ((l.filter fun s => s.chat_id = c ∧ s.user_id = uid).map
    (fun s => s.msg_count)).sum

/-- The aggregate row for key `(c, uid)`, if any. -/
def aggFind (l : List UserStat) (c uid : Int) : Option UserStat :=
  l.find? fun s => s.chat_id = c ∧ s.user_id = uid

/-- Number of `setOffset` effects in a trace. -/
def countSetOffset (tr : List Effect) : Nat :=
  tr.countP fun e => match e with | Effect.setOffset _ => true | _ => false

/-- The `update_id`s of the save attempts of a trace, in order. -/
def saveAttemptIds (tr : List Effect) : List Int :=
  tr.filterMap fun e =>
    match e with | Effect.saveAttempt i => some i | _ => none

/-- The timestamp `save_message_to_mongo` would record for an update. -/
def updTs (u : Update) (now : Int) : Int :=
  match u.message with
  | none => now
  | some m => m.date.getD now

/-- Modelled from the spec: the Query Service's
`originStats(origin_id).top_actors` — the origin's actors ordered by
`event_count` descending, truncated to 5.  `main.py` has no such
computation; this definition exists only to compare the spec's claimed
reply content with what `reply_stats` returns. -/
def topActorsSpec (db : DB) (c : Int) : List (Int × Nat) :=
  (((db.userstats.filter fun s => s.chat_id = c).map
      (fun s => (s.user_id, s.msg_count))).insertionSort
    (fun a b => b.2 ≤ a.2)).take 5

/-- The platform message id carried by an update (`0` when no message). -/
def msgIdOf (u : Update) : Int :=
  match u.message with
  | none => 0
  | some m => m.message_id

/-- Fault-free processing of a sequence of updates through
`save_message_to_mongo`, in delivery order. -/
def foldSave (db : DB) (us : List Update) (now : Int) : DB :=
  us.foldl (fun d u => save_message_to_mongo d u now Fault.ok) db

/-- The count part of the spec's aggregate invariant: for every actor pair,
the total aggregate `msg_count` equals the number of stored message rows for
that pair. -/
def CountInv (db : DB) : Prop :=
  ∀ c uid : Int, aggTotal db.userstats c uid = rowsForPair db c uid

/-- The order part of the spec's aggregate invariant:
`first_seen ≤ last_seen` on every stored aggregate row. -/
def OrderInv (db : DB) : Prop :=
  ∀ s ∈ db.userstats, s.first_seen ≤ s.last_seen

/-- Number of message rows of a given origin (the `/stats` per-chat message
count). -/
def rowsForOrigin (db : DB) (c : Int) : Nat :=
  db.messages.countP fun d => d.chat_id = c

/-- Number of aggregate rows of a given origin (the `/stats` per-chat user
count). -/
def aggRowsForOrigin (db : DB) (c : Int) : Nat :=
  db.userstats.countP fun s => s.chat_id = c

/-- The ordering the spec asserts for cursor persistence, read off a trace:
every persisted cursor write comes after every save attempt of the batch. -/
def cursorAfterAllSaves (tr : List Effect) : Prop :=
  ∀ i j v k, tr.get? i = some (Effect.setOffset v) →
    tr.get? j = some (Effect.saveAttempt k) → j < i

/-- An empty store. -/
def dbEmpty : DB := ⟨[], [], none⟩

/-- A plain text message carrying no service flags. -/
def mkMsg (mid ts : Int) (txt : String) : Msg :=
  { message_id := mid, date := some ts, text := some txt, caption := none
  , new_chat_members := false, left_chat_member := false
  , pinned_message := false, group_chat_created := false
  , supergroup_chat_created := false, channel_chat_created := false }

/-- A plain text-message update, used in the concrete scenarios below. -/
def sampleUpdate (uid mid chatId userId ts : Int) (txt ctype : String) :
    Update :=
  { update_id := uid
  , message := some (mkMsg mid ts txt)
  , effective_chat := { id := chatId, type := ctype }
  , effective_user := { id := userId, username := some "u", full_name := "U V" } }

/-- One ordinary group message with update id 7, message id 1 (a captionless
media message: no text, so the command path does not fire). -/
def uC1 : Update :=
  { update_id := 7
  , message := some
      { message_id := 1, date := some 100, text := none, caption := none
      , new_chat_members := false, left_chat_member := false
      , pinned_message := false, group_chat_created := false
      , supergroup_chat_created := false, channel_chat_created := false }
  , effective_chat := { id := 10, type := "group" }
  , effective_user := { id := 20, username := some "u", full_name := "U V" } }

/-- Trace of the batch `[uC1]` from an empty store with no prior offset. -/
def c1Trace : List Effect :=
  (processBatch ⟨none, dbEmpty⟩ [uC1] 999 []).2

/-- Two accepted events for actor pair (1, 2): timestamps 100 then 50. -/
def dbC3 : DB :=
  save_message_to_mongo
    (save_message_to_mongo dbEmpty (sampleUpdate 1 10 1 2 100 "x" "group")
      0 Fault.ok)
    (sampleUpdate 2 11 1 2 50 "y" "group") 0 Fault.ok

/-- Two accepted events for actor pair (3, 4): timestamps 200 then 60. -/
def dbC4 : DB :=
  save_message_to_mongo
    (save_message_to_mongo dbEmpty (sampleUpdate 3 20 3 4 200 "x" "group")
      0 Fault.ok)
    (sampleUpdate 4 21 3 4 60 "y" "group") 0 Fault.ok

/-- A message row, display fields blank, for the stats scenarios. -/
def mkRow (c uid mid ts : Int) : MsgDoc :=
  ⟨c, uid, "", "", ts, "", mid, "group"⟩

/-- An aggregate row, display fields blank, for the stats scenarios. -/
def mkAgg (c uid f l : Int) (n : Nat) : UserStat :=
  ⟨c, uid, "", "", f, l, n⟩

/-- Origin 1: actor 10 sent two messages, actor 11 one. -/
def dbTopA : DB :=
  ⟨[mkRow 1 10 1 5, mkRow 1 10 2 6, mkRow 1 11 3 7],
   [mkAgg 1 10 5 6 2, mkAgg 1 11 7 7 1], none⟩

/-- Origin 1: actor 10 sent one message, actor 11 two. -/
def dbTopB : DB :=
  ⟨[mkRow 1 10 1 5, mkRow 1 11 2 6, mkRow 1 11 3 7],
   [mkAgg 1 10 5 5 1, mkAgg 1 11 6 7 2], none⟩

/-- An update carrying no message at all (a transport notification). -/
def uNoMsg : Update :=
  { update_id := 1, message := none
  , effective_chat := { id := 1, type := "group" }
  , effective_user := { id := 1, username := none, full_name := "" } }

/-- The reply the command block of `poll_loop` sends for a recognized
command text: a static status message for `/start`, the stats snapshot read
from the store `db` for `/stats`. -/
def cmdReply (db : DB) (chat_id : Int) (txt : String) : Reply :=
  if txt = "/start" then Reply.startMsg chat_id
  else Reply.statsMsg chat_id (reply_stats db chat_id)

/-- A `/start` command sent in a private (direct-message) chat. -/
def uStartPriv : Update := sampleUpdate 1 1 100 7 50 "/start" "private"

/-- A `/stats` command sent in a private (direct-message) chat. -/
def uStatsPriv : Update := sampleUpdate 1 1 100 7 50 "/stats" "private"

/-- A `/start` command sent in a group chat. -/
def uStartGrp : Update := sampleUpdate 2 2 200 7 60 "/start" "group"

/-- A group message with key (chat 1, msg 5) from actor 2. -/
def uDupA : Update := sampleUpdate 1 5 1 2 100 "a" "group"

/-- Another delivery of key (chat 1, msg 5), differing payload, actor 3. -/
def uDupB : Update := sampleUpdate 9 5 1 3 100 "b" "group"

/-- A second, fresh message from actor 2 in chat 1, timestamp 200. -/
def uSeqB : Update := sampleUpdate 2 6 1 2 200 "b" "group"

/-- A non-storable update (no message, service message, or non-group chat)
leaves the store untouched, whatever fault is injected. -/
theorem save_not_storable (db : DB) (u : Update) (now : Int) (f : Fault)
    (h : storable u = false) : save_message_to_mongo db u now f = db := by
  unfold save_message_to_mongo save_body
  unfold storable at h
  cases hm : u.message with
  | none => simp
  | some m =>
    rw [hm] at h
    simp only [Bool.and_eq_false_iff, Bool.not_eq_false'] at h
    rcases h with h | h
    · simp [h]
    · cases hsvc : is_service_message m <;> simp [hsvc, h]

/-- A `PyMongoError` on the insert is swallowed: nothing is written. -/
theorem save_insertFail (db : DB) (u : Update) (now : Int) :
    save_message_to_mongo db u now Fault.insertFail = db := by
  unfold save_message_to_mongo save_body
  cases hm : u.message with
  | none => simp
  | some m =>
    cases hsvc : is_service_message m with
    | true => simp [hsvc]
    | false =>
      cases hgrp : is_group_chat u.effective_chat.type <;> simp [hsvc, hgrp]

/-- When the unique key `(chat_id, msg_id)` is already present, the save is a
no-op for every injected fault: the insert raises `DuplicateKeyError` before
the aggregate update runs. -/
theorem save_key_present (db : DB) (u : Update) (m : Msg) (now : Int)
    (f : Fault) (hm : u.message = some m)
    (hkey : hasKey db u.effective_chat.id m.message_id = true) :
    save_message_to_mongo db u now f = db := by
  unfold save_message_to_mongo save_body
  rw [hm]
  cases hsvc : is_service_message m with
  | true => simp [hsvc]
  | false =>
    cases hgrp : is_group_chat u.effective_chat.type with
    | false => simp [hsvc, hgrp]
    | true =>
      cases f <;> simp [hsvc, hgrp, mkDoc, hkey]

/-- A fault-free save of a storable update with a fresh key appends the
message document and upserts the actor aggregate. -/
theorem save_fresh (db : DB) (u : Update) (m : Msg) (now : Int)
    (hm : u.message = some m) (hsvc : is_service_message m = false)
    (hgrp : is_group_chat u.effective_chat.type = true)
    (hkey : hasKey db u.effective_chat.id m.message_id = false) :
    save_message_to_mongo db u now Fault.ok =
      { messages := db.messages ++ [mkDoc u m now]
      , userstats := upsertUserStat db.userstats u.effective_chat.id
          u.effective_user.id (strOr u.effective_user.username "")
          (pyStrip u.effective_user.full_name) (m.date.getD now)
      , meta_offset := db.meta_offset } := by
  unfold save_message_to_mongo save_body
  rw [hm]
  simp [hsvc, hgrp, mkDoc, hkey]

/-- No branch of `save_message_to_mongo` touches the cursor register. -/
theorem save_meta (db : DB) (u : Update) (now : Int) (f : Fault) :
    (save_message_to_mongo db u now f).meta_offset = db.meta_offset := by
  unfold save_message_to_mongo save_body
  cases hm : u.message with
  | none => simp
  | some m =>
    cases hsvc : is_service_message m with
    | true => simp [hsvc]
    | false =>
      cases hgrp : is_group_chat u.effective_chat.type with
      | false => simp [hsvc, hgrp]
      | true =>
        cases f with
        | insertFail => simp [hsvc, hgrp]
        | ok =>
          cases hkey : hasKey db u.effective_chat.id m.message_id <;>
            simp [hsvc, hgrp, mkDoc, hkey]
        | upsertFail =>
          cases hkey : hasKey db u.effective_chat.id m.message_id <;>
            simp [hsvc, hgrp, mkDoc, hkey]

/-- The upsert adds exactly one to the aggregate total of its own key. -/
theorem aggTotal_upsert_same (l : List UserStat) (c uid : Int)
    (un fn : String) (ts : Int) :
    aggTotal (upsertUserStat l c uid un fn ts) c uid = aggTotal l c uid + 1 := by
  induction l with
  | nil => simp [upsertUserStat, aggTotal, List.filter]
  | cons s rest ih =>
    by_cases hkeq : s.chat_id = c ∧ s.user_id = uid
    · simp [upsertUserStat, hkeq, aggTotal, List.filter, applyUpsert] at *
      omega
    · simp [upsertUserStat, hkeq, aggTotal, List.filter] at *
      exact ih

/-- `aggTotal` over a cons: the head contributes iff it carries the key. -/
theorem aggTotal_cons (s : UserStat) (rest : List UserStat) (c uid : Int) :
    aggTotal (s :: rest) c uid =
      (if s.chat_id = c ∧ s.user_id = uid then s.msg_count else 0)
        + aggTotal rest c uid := by
  by_cases hm : s.chat_id = c ∧ s.user_id = uid <;>
    simp [aggTotal, List.filter, hm]

/-- The upsert leaves the aggregate totals of every other key unchanged. -/
theorem aggTotal_upsert_other (l : List UserStat) (c uid : Int)
    (un fn : String) (ts : Int) (c' uid' : Int)
    (h : ¬ (c' = c ∧ uid' = uid)) :
    aggTotal (upsertUserStat l c uid un fn ts) c' uid' = aggTotal l c' uid' := by
  have hsymm : ¬ (c = c' ∧ uid = uid') := fun hp => h ⟨hp.1.symm, hp.2.symm⟩
  induction l with
  | nil => simp [upsertUserStat, aggTotal, List.filter, hsymm]
  | cons s rest ih =>
    simp only [upsertUserStat]
    by_cases hkeq : s.chat_id = c ∧ s.user_id = uid
    · rw [if_pos hkeq]
      have hne : ¬ (s.chat_id = c' ∧ s.user_id = uid') := fun hp =>
        h ⟨hp.1.symm.trans hkeq.1, hp.2.symm.trans hkeq.2⟩
      have hne2 : ¬ ((applyUpsert s un fn ts).chat_id = c' ∧
          (applyUpsert s un fn ts).user_id = uid') := by
        simpa [applyUpsert] using hne
      rw [aggTotal_cons, aggTotal_cons, if_neg hne, if_neg hne2]
    · rw [if_neg hkeq]
      rw [aggTotal_cons, aggTotal_cons, ih]

/-- Upsert into a list without the key: the fresh `$setOnInsert` row appears. -/
theorem aggFind_upsert_absent (l : List UserStat) (c uid : Int)
    (un fn : String) (ts : Int) (h : aggFind l c uid = none) :
    aggFind (upsertUserStat l c uid un fn ts) c uid =
      some ⟨c, uid, un, fn, ts, ts, 1⟩ := by
  induction l with
  | nil => simp [upsertUserStat, aggFind, List.find?]
  | cons s rest ih =>
    have hkeq : ¬ (s.chat_id = c ∧ s.user_id = uid) := by
      intro hp
      unfold aggFind at h
      rw [List.find?_cons_of_pos _ (by simpa using hp)] at h
      exact Option.some_ne_none s h
    unfold aggFind at h
    rw [List.find?_cons_of_neg _ (by simpa using hkeq)] at h
    simp only [upsertUserStat]
    rw [if_neg hkeq]
    unfold aggFind
    rw [List.find?_cons_of_neg _ (by simpa using hkeq)]
    exact ih h

/-- Upsert into a list holding the key: the row is updated in place. -/
theorem aggFind_upsert_present (l : List UserStat) (c uid : Int)
    (un fn : String) (ts : Int) (s : UserStat)
    (h : aggFind l c uid = some s) :
    aggFind (upsertUserStat l c uid un fn ts) c uid =
      some (applyUpsert s un fn ts) := by
  induction l with
  | nil => simp [aggFind] at h
  | cons t rest ih =>
    by_cases hkeq : t.chat_id = c ∧ t.user_id = uid
    · unfold aggFind at h
      rw [List.find?_cons_of_pos _ (by simpa using hkeq)] at h
      cases h
      simp only [upsertUserStat]
      rw [if_pos hkeq]
      unfold aggFind
      rw [List.find?_cons_of_pos _ (by simpa [applyUpsert] using hkeq)]
    · unfold aggFind at h
      rw [List.find?_cons_of_neg _ (by simpa using hkeq)] at h
      simp only [upsertUserStat]
      rw [if_neg hkeq]
      unfold aggFind
      rw [List.find?_cons_of_neg _ (by simpa using hkeq)]
      exact ih h

/-- The per-update loop never touches the cursor register. -/
theorem processEvents_meta (us : List Update) (db : DB) (now : Int)
    (fs : List Fault) :
    (processEvents db us now fs).1.meta_offset = db.meta_offset := by
  induction us generalizing db fs with
  | nil => rfl
  | cons u rest ih =>
    simp only [processEvents]
    rw [ih, save_meta]

/-- The per-update loop emits no cursor write into the trace. -/
theorem processEvents_no_setOffset (us : List Update) (db : DB) (now : Int)
    (fs : List Fault) :
    countSetOffset (processEvents db us now fs).2 = 0 := by
  induction us generalizing db fs with
  | nil => rfl
  | cons u rest ih =>
    simp only [processEvents, countSetOffset, List.countP_append,
      List.countP_cons, List.countP_map] at *
    simp [ih, Function.comp]

/-- Every update of the batch gets exactly one save attempt, in delivery
order, whatever faults are injected. -/
theorem processEvents_attempts (us : List Update) (db : DB) (now : Int)
    (fs : List Fault) :
    saveAttemptIds (processEvents db us now fs).2 =
      us.map (fun u => u.update_id) := by
  induction us generalizing db fs with
  | nil => rfl
  | cons u rest ih =>
    simp only [processEvents, saveAttemptIds, List.filterMap_append,
      List.filterMap_cons, List.filterMap_map] at *
    simp [ih, Function.comp]

/-- `storable` unpacked. -/
theorem storable_iff (u : Update) :
    storable u = true ↔
      ∃ m, u.message = some m ∧ is_service_message m = false ∧
        is_group_chat u.effective_chat.type = true := by
  cases hm : u.message with
  | none => simp [storable, hm]
  | some m => simp [storable, hm]

/-- An absent unique key means zero stored rows with that key. -/
theorem rowsWithKey_eq_zero (db : DB) (c mid : Int)
    (h : hasKey db c mid = false) : rowsWithKey db c mid = 0 := by
  unfold hasKey at h
  unfold rowsWithKey
  rw [List.countP_eq_zero]
  intro a ha
  rw [List.any_eq_false] at h
  exact h a ha

/-- Re-delivering an update whose unique key is already stored any number of
times changes nothing. -/
theorem foldSave_replicate_dup (k : Nat) (d : DB) (u : Update) (m : Msg)
    (now : Int) (hm : u.message = some m)
    (hk : hasKey d u.effective_chat.id m.message_id = true) :
    foldSave d (List.replicate k u) now = d := by
  induction k with
  | zero => rfl
  | succ k ih =>
    unfold foldSave at *
    rw [List.replicate_succ, List.foldl_cons,
      save_key_present d u m now Fault.ok hm hk]
    exact ih

/-- Membership in an upserted aggregate list: an updated old row of the key,
an untouched old row, or the fresh `$setOnInsert` row. -/
theorem mem_upsert (l : List UserStat) (c uid : Int) (un fn : String)
    (ts : Int) (s : UserStat)
    (hs : s ∈ upsertUserStat l c uid un fn ts) :
    (∃ t ∈ l, s = applyUpsert t un fn ts ∧ t.chat_id = c ∧ t.user_id = uid)
      ∨ s ∈ l
      ∨ s = ⟨c, uid, un, fn, ts, ts, 1⟩ := by
  induction l with
  | nil =>
    right; right
    simpa [upsertUserStat] using hs
  | cons t rest ih =>
    by_cases hkeq : t.chat_id = c ∧ t.user_id = uid
    · simp only [upsertUserStat, if_pos hkeq] at hs
      rcases List.mem_cons.mp hs with h | h
      · exact Or.inl ⟨t, List.mem_cons_self t rest, h, hkeq⟩
      · exact Or.inr (Or.inl (List.mem_cons_of_mem t h))
    · simp only [upsertUserStat, if_neg hkeq] at hs
      rcases List.mem_cons.mp hs with h | h
      · exact Or.inr (Or.inl (h ▸ List.mem_cons_self t rest))
      · rcases ih h with ⟨w, hw, hrest⟩ | h | h
        · exact Or.inl ⟨w, List.mem_cons_of_mem t hw, hrest⟩
        · exact Or.inr (Or.inl (List.mem_cons_of_mem t h))
        · exact Or.inr (Or.inr h)

/-- C9: a raw event that carries no actionable message (no `message` at all)
or is a service notification (membership change, pin, chat-created) is
discarded without raising an error and without writing to the Event Store or
Aggregate Store: `save_body` returns normally with the store unchanged. -/
theorem c9_non_actionable_discarded (db : DB) (u : Update) (now : Int)
    (f : Fault)
    (h : u.message = none ∨
      ∃ m, u.message = some m ∧ is_service_message m = true) :
    save_body db u now f = Except.ok db ∧
    save_message_to_mongo db u now f = db := by
  have hb : save_body db u now f = Except.ok db := by
    rcases h with h | ⟨m, hm, hsvc⟩
    · unfold save_body
      rw [h]
    · unfold save_body
      rw [hm]
      simp [hsvc]
  refine ⟨hb, ?_⟩
  unfold save_message_to_mongo
  rw [hb]

/-- Witness for C9 at a concrete message-less update on an empty store. -/
theorem c9_witness :
    (uNoMsg.message = none ∨
      ∃ m, uNoMsg.message = some m ∧ is_service_message m = true) ∧
    (save_body dbEmpty uNoMsg 0 Fault.ok = Except.ok dbEmpty ∧
      save_message_to_mongo dbEmpty uNoMsg 0 Fault.ok = dbEmpty) :=
  ⟨Or.inl rfl,
    c9_non_actionable_discarded dbEmpty uNoMsg 0 Fault.ok (Or.inl rfl)⟩

/-- C10: a fetch returning zero events leaves the whole state (cursor
register included) unchanged and emits nothing; across any batch, the cursor
register is rewritten exactly once when the batch is non-empty and never
otherwise. -/
theorem c10_empty_fetch_frame (st : PollState) (us : List Update) (now : Int)
    (fs : List Fault) :
    processBatch st [] now fs = (st, []) ∧
    countSetOffset (processBatch st us now fs).2 =
      (if us.isEmpty then 0 else 1) := by
  refine ⟨rfl, ?_⟩
  cases us with
  | nil => rfl
  | cons u rest =>
    obtain ⟨lu, hlu⟩ : ∃ lu, (u :: rest).getLast? = some lu := by
      cases h : (u :: rest).getLast? with
      | some x => exact ⟨x, rfl⟩
      | none =>
        exact absurd (List.getLast?_eq_none_iff.mp h) (List.cons_ne_nil u rest)
    simp only [processBatch, hlu, List.isEmpty_cons, if_neg]
    have h0 := processEvents_no_setOffset (u :: rest)
      (set_offset st.db (lu.update_id + 1)) now fs
    simp only [countSetOffset, List.countP_cons] at h0 ⊢
    simp [h0]

/-- C5: after a non-empty pull batch whose last delivered event has position
`pk`, both the working offset and the persisted cursor register hold
`pk + 1`, for every prior store state and every injected fault pattern — in
particular duplicate-rejected events do not change the persisted value. -/
theorem c5_cursor_value (st : PollState) (us : List Update) (now : Int)
    (fs : List Fault) (lu : Update) (h : us.getLast? = some lu) :
    (processBatch st us now fs).1.offset = some (lu.update_id + 1) ∧
    get_offset (processBatch st us now fs).1.db = some (lu.update_id + 1) := by
  constructor
  · simp only [processBatch, h]
  · have hdb : (processBatch st us now fs).1.db =
        (processEvents (set_offset st.db (lu.update_id + 1)) us now fs).1 := by
      simp only [processBatch, h]
    rw [get_offset, hdb, processEvents_meta]
    rfl

/-- Witness for C5: a one-event batch with update id 7 persists cursor 8. -/
theorem c5_witness :
    [uC1].getLast? = some uC1 ∧
    ((processBatch ⟨none, dbEmpty⟩ [uC1] 999 []).1.offset = some (uC1.update_id + 1) ∧
      get_offset (processBatch ⟨none, dbEmpty⟩ [uC1] 999 []).1.db
        = some (uC1.update_id + 1)) :=
  ⟨rfl, c5_cursor_value ⟨none, dbEmpty⟩ [uC1] 999 [] uC1 rfl⟩

/-- C8: an event whose insert raises a store-level failure other than the
duplicate-key case is caught: it leaves the store unchanged, and every
subsequent event of the batch is processed exactly as it would have been;
moreover, under every fault pattern each event of a batch still gets its save
attempt, in delivery order. -/
theorem c8_store_failure_does_not_abort (db : DB) (u : Update)
    (us : List Update) (now : Int) (fs : List Fault) :
    processEvents db (u :: us) now (Fault.insertFail :: fs) =
      ((processEvents db us now fs).1,
        (commandReplies db u).map Effect.reply
          ++ [Effect.saveAttempt u.update_id]
          ++ (processEvents db us now fs).2) ∧
    saveAttemptIds (processEvents db (u :: us) now (Fault.insertFail :: fs)).2 =
      (u :: us).map (fun v => v.update_id) := by
  refine ⟨?_, processEvents_attempts ..⟩
  simp only [processEvents, List.headD_cons, List.tail_cons, save_insertFail]

/-- C1 (counterexample): the claim says the cursor register is persisted only
after every event of the batch has been stored.  In the code the persisted
cursor write (`set_offset`) happens first: for the concrete one-event batch
`[uC1]` the trace is `[setOffset 8, saveAttempt 7]`, so the cursor write
precedes the save attempt and the claimed ordering is false. -/
theorem c1_counterexample : ¬ cursorAfterAllSaves c1Trace := by
  intro hcl
  have h0 : c1Trace.get? 0 = some (Effect.setOffset 8) := by decide
  have h1 : c1Trace.get? 1 = some (Effect.saveAttempt 7) := by decide
  have := hcl 0 1 8 7 h0 h1
  omega

/-- C1 (amended): for every non-empty fetched batch the cursor register is
persisted exactly once, as the very first effect of batch processing — before
any event of the batch is dispatched to storage — and the per-event loop
performs no further cursor write. -/
theorem c1_cursor_persisted_before_batch (st : PollState) (us : List Update)
    (now : Int) (fs : List Fault) (lu : Update) (h : us.getLast? = some lu) :
    (processBatch st us now fs).2 =
      Effect.setOffset (lu.update_id + 1)
        :: (processEvents (set_offset st.db (lu.update_id + 1)) us now fs).2 ∧
    countSetOffset
      (processEvents (set_offset st.db (lu.update_id + 1)) us now fs).2 = 0 := by
  refine ⟨?_, processEvents_no_setOffset ..⟩
  simp only [processBatch, h]

/-- Witness for the amended C1 at the concrete one-event batch `[uC1]`. -/
theorem c1_witness :
    [uC1].getLast? = some uC1 ∧
    ((processBatch ⟨none, dbEmpty⟩ [uC1] 999 []).2 =
      Effect.setOffset (uC1.update_id + 1)
        :: (processEvents (set_offset dbEmpty (uC1.update_id + 1)) [uC1] 999 []).2 ∧
    countSetOffset
      (processEvents (set_offset dbEmpty (uC1.update_id + 1)) [uC1] 999 []).2 = 0) :=
  ⟨rfl, c1_cursor_persisted_before_batch ⟨none, dbEmpty⟩ [uC1] 999 [] uC1 rfl⟩

/-- C7 (counterexample): the claim says the origin-scoped stats reply carries
a `top_actors` list ordered by event count.  `reply_stats` returns only
counts: two stores whose top-actor rankings differ (`dbTopA`: actor 10 ahead;
`dbTopB`: actor 11 ahead) produce identical replies, so the reply cannot
contain any top-actors information. -/
theorem c7_counterexample :
    reply_stats dbTopA 1 = reply_stats dbTopB 1 ∧
    topActorsSpec dbTopA 1 ≠ topActorsSpec dbTopB 1 := by
  constructor
  · decide
  · decide

/-- C7 (amended): the origin-scoped stats reply returns the origin's event
count and actor count (alongside global totals); it contains no `top_actors`
list. -/
theorem c7_stats_reply_counts (db : DB) (c : Int) :
    (reply_stats db c).chat_msgs = rowsForOrigin db c ∧
    (reply_stats db c).chat_users = aggRowsForOrigin db c ∧
    (reply_stats db c).total_msgs = db.messages.length := by
  refine ⟨?_, ?_, rfl⟩ <;>
    simp [reply_stats, rowsForOrigin, aggRowsForOrigin,
      List.countP_eq_length_filter]

/-- C3 (counterexample): actor (1,2) gets two accepted events with
`occurred_at` 100 then 50 (delivery order ≠ timestamp order).  The stored
aggregate is `(first_seen, last_seen, event_count) = (100, 50, 2)`, not the
claimed `(min, max) = (50, 100)`: `first_seen` is the first accepted
timestamp and `last_seen` the last accepted one, not the extrema. -/
theorem c3_counterexample :
    (aggFind dbC3.userstats 1 2).map
        (fun s => (s.first_seen, s.last_seen, s.msg_count))
      = some (100, 50, 2) ∧
    ¬ ((aggFind dbC3.userstats 1 2).map
        (fun s => (s.first_seen, s.last_seen)) = some (50, 100)) := by
  constructor <;> decide

/-- C4 (counterexample): after the two accepted events of `dbC4` (timestamps
200 then 60 for actor (3,4)) the stored aggregate has
`first_seen = 200 > 60 = last_seen`, so the invariant `first_seen ≤
last_seen` does not hold after every pipeline operation. -/
theorem c4_counterexample :
    (aggFind dbC4.userstats 3 4).map (fun s => (s.first_seen, s.last_seen))
      = some (200, 60) ∧ ¬ OrderInv dbC4 := by
  refine ⟨by decide, ?_⟩
  unfold OrderInv
  decide

/-- C2: deliveries of group-origin events sharing one (origin, sequence)
key — the same event repeated `1 + n` times, or a second differing payload
`u2` with the same key after `u1` — leave exactly one Event row for the key
and exactly one aggregate increment, and the duplicate save is a no-op
rather than an error. -/
theorem c2_duplicate_suppression (db : DB) (u1 u2 : Update) (m1 m2 : Msg)
    (now : Int) (n : Nat)
    (hm1 : u1.message = some m1) (hs1 : is_service_message m1 = false)
    (hg1 : is_group_chat u1.effective_chat.type = true)
    (hm2 : u2.message = some m2)
    (hc : u2.effective_chat.id = u1.effective_chat.id)
    (hmid : m2.message_id = m1.message_id)
    (hfresh : hasKey db u1.effective_chat.id m1.message_id = false) :
    rowsWithKey
        (foldSave (save_message_to_mongo db u1 now Fault.ok)
          (List.replicate n u1) now)
        u1.effective_chat.id m1.message_id = 1 ∧
    aggTotal
        (foldSave (save_message_to_mongo db u1 now Fault.ok)
          (List.replicate n u1) now).userstats
        u1.effective_chat.id u1.effective_user.id
      = aggTotal db.userstats u1.effective_chat.id u1.effective_user.id + 1 ∧
    save_message_to_mongo (save_message_to_mongo db u1 now Fault.ok) u2 now
        Fault.ok
      = save_message_to_mongo db u1 now Fault.ok := by
  have hdb1 := save_fresh db u1 m1 now hm1 hs1 hg1 hfresh
  have hkey1 : hasKey (save_message_to_mongo db u1 now Fault.ok)
      u1.effective_chat.id m1.message_id = true := by
    rw [hdb1]
    simp [hasKey, List.any_append, mkDoc]
  have hrep := foldSave_replicate_dup n (save_message_to_mongo db u1 now
    Fault.ok) u1 m1 now hm1 hkey1
  refine ⟨?_, ?_, ?_⟩
  · rw [hrep, hdb1]
    unfold rowsWithKey
    rw [List.countP_append]
    have h0 : rowsWithKey db u1.effective_chat.id m1.message_id = 0 :=
      rowsWithKey_eq_zero db _ _ hfresh
    unfold rowsWithKey at h0
    rw [h0]
    simp [mkDoc]
  · rw [hrep, hdb1]
    exact aggTotal_upsert_same ..
  · have hkey2 : hasKey (save_message_to_mongo db u1 now Fault.ok)
        u2.effective_chat.id m2.message_id = true := by
      rw [hc, hmid]
      exact hkey1
    exact save_key_present _ u2 m2 now Fault.ok hm2 hkey2

/-- Folding fault-free saves of storable, fresh, same-pair updates over a
store that already holds an aggregate row: the row's count grows by the
number of updates, `first_seen` is untouched, and `last_seen` becomes the
last update's timestamp. -/
theorem foldSave_agg_present (us : List Update) :
    ∀ (db : DB) (s : UserStat) (c uid now : Int),
      (∀ u ∈ us, storable u = true ∧ u.effective_chat.id = c ∧
        u.effective_user.id = uid) →
      (∀ u ∈ us, hasKey db c (msgIdOf u) = false) →
      us.Pairwise (fun a b => msgIdOf a ≠ msgIdOf b) →
      aggFind db.userstats c uid = some s →
      ∃ t, aggFind (foldSave db us now).userstats c uid = some t ∧
        t.msg_count = s.msg_count + us.length ∧
        t.first_seen = s.first_seen ∧
        t.last_seen = us.getLast?.elim s.last_seen (fun u => updTs u now) := by
  induction us with
  | nil =>
    intro db s c uid now _ _ _ hagg
    exact ⟨s, hagg, by simp, rfl, rfl⟩
  | cons u rest ih =>
    intro db s c uid now hall hfresh hdist hagg
    obtain ⟨hst, hcid, huid⟩ := hall u (List.mem_cons_self u rest)
    obtain ⟨m, hm, hsvc, hgrp⟩ := (storable_iff u).mp hst
    have hmid : msgIdOf u = m.message_id := by simp [msgIdOf, hm]
    have hkey0 : hasKey db u.effective_chat.id m.message_id = false := by
      rw [hcid, ← hmid]
      exact hfresh u (List.mem_cons_self u rest)
    have hdb1 := save_fresh db u m now hm hsvc hgrp hkey0
    rw [hcid, huid] at hdb1
    have hagg1 : aggFind (save_message_to_mongo db u now Fault.ok).userstats
        c uid = some (applyUpsert s (strOr u.effective_user.username "")
          (pyStrip u.effective_user.full_name) (m.date.getD now)) := by
      rw [hdb1]
      exact aggFind_upsert_present db.userstats c uid _ _ _ s hagg
    have hfresh1 : ∀ v ∈ rest,
        hasKey (save_message_to_mongo db u now Fault.ok) c (msgIdOf v)
          = false := by
      intro v hv
      have h1 := hfresh v (List.mem_cons_of_mem u hv)
      have h2 : ¬ (m.message_id = msgIdOf v) := by
        rw [← hmid]
        exact (List.pairwise_cons.mp hdist).1 v hv
      rw [hdb1]
      unfold hasKey at h1 ⊢
      simp only [List.any_append, List.any_cons, List.any_nil, Bool.or_false]
      rw [h1]
      simp [mkDoc, hcid, h2]
    have hall1 : ∀ v ∈ rest, storable v = true ∧ v.effective_chat.id = c ∧
        v.effective_user.id = uid :=
      fun v hv => hall v (List.mem_cons_of_mem u hv)
    have hdist1 := (List.pairwise_cons.mp hdist).2
    obtain ⟨t, ht, hcount, hfirst, hlast⟩ :=
      ih (save_message_to_mongo db u now Fault.ok)
        (applyUpsert s (strOr u.effective_user.username "")
          (pyStrip u.effective_user.full_name) (m.date.getD now))
        c uid now hall1 hfresh1 hdist1 hagg1
    refine ⟨t, ?_, ?_, ?_, ?_⟩
    · unfold foldSave at ht ⊢
      rw [List.foldl_cons]
      exact ht
    · rw [hcount]
      simp [applyUpsert, List.length_cons]
      omega
    · rw [hfirst]
      simp [applyUpsert]
    · cases rest with
      | nil =>
        rw [hlast]
        simp [applyUpsert, updTs, hm]
      | cons r rs =>
        rw [hlast, List.getLast?_cons_cons]
        obtain ⟨x, hx⟩ : ∃ x, (r :: rs).getLast? = some x :=
          ⟨_, List.getLast?_eq_getLast_of_ne_nil (List.cons_ne_nil r rs)⟩
        rw [hx]
        rfl

/-- C3 (amended): for a non-empty sequence of accepted (freshly inserted)
events of one actor pair, all storable, with pairwise-distinct sequence ids
and no prior aggregate row, the resulting aggregate has `event_count` equal
to the number of accepted events (equivalently, the number of distinct
sequence ids accepted), `first_seen` equal to the **first** accepted event's
`occurred_at` and `last_seen` equal to the **last** accepted event's
`occurred_at` (these coincide with min/max exactly when delivery order is
non-decreasing in `occurred_at`, but not in general — see the
counterexample). -/
theorem c3_aggregate_fields (us : List Update) (db : DB) (c uid now : Int)
    (hne : us ≠ [])
    (hall : ∀ u ∈ us, storable u = true ∧ u.effective_chat.id = c ∧
      u.effective_user.id = uid)
    (hfresh : ∀ u ∈ us, hasKey db c (msgIdOf u) = false)
    (hdist : us.Pairwise (fun a b => msgIdOf a ≠ msgIdOf b))
    (habs : aggFind db.userstats c uid = none) :
    ∃ t, aggFind (foldSave db us now).userstats c uid = some t ∧
      t.msg_count = us.length ∧
      t.msg_count = (us.map msgIdOf).dedup.length ∧
      t.first_seen = updTs (us.head hne) now ∧
      t.last_seen = updTs (us.getLast hne) now := by
  have hnodup : (us.map msgIdOf).Nodup := List.pairwise_map.mpr hdist
  cases us with
  | nil => exact absurd rfl hne
  | cons u rest =>
    obtain ⟨hst, hcid, huid⟩ := hall u (List.mem_cons_self u rest)
    obtain ⟨m, hm, hsvc, hgrp⟩ := (storable_iff u).mp hst
    have hmid : msgIdOf u = m.message_id := by simp [msgIdOf, hm]
    have hkey0 : hasKey db u.effective_chat.id m.message_id = false := by
      rw [hcid, ← hmid]
      exact hfresh u (List.mem_cons_self u rest)
    have hdb1 := save_fresh db u m now hm hsvc hgrp hkey0
    rw [hcid, huid] at hdb1
    have hagg1 : aggFind (save_message_to_mongo db u now Fault.ok).userstats
        c uid = some ⟨c, uid, strOr u.effective_user.username "",
          pyStrip u.effective_user.full_name, m.date.getD now,
          m.date.getD now, 1⟩ := by
      rw [hdb1]
      exact aggFind_upsert_absent db.userstats c uid _ _ _ habs
    have hfresh1 : ∀ v ∈ rest,
        hasKey (save_message_to_mongo db u now Fault.ok) c (msgIdOf v)
          = false := by
      intro v hv
      have h1 := hfresh v (List.mem_cons_of_mem u hv)
      have h2 : ¬ (m.message_id = msgIdOf v) := by
        rw [← hmid]
        exact (List.pairwise_cons.mp hdist).1 v hv
      rw [hdb1]
      unfold hasKey at h1 ⊢
      simp only [List.any_append, List.any_cons, List.any_nil, Bool.or_false]
      rw [h1]
      simp [mkDoc, hcid, h2]
    have hall1 : ∀ v ∈ rest, storable v = true ∧ v.effective_chat.id = c ∧
        v.effective_user.id = uid :=
      fun v hv => hall v (List.mem_cons_of_mem u hv)
    have hdist1 := (List.pairwise_cons.mp hdist).2
    obtain ⟨t, ht, hcount, hfirst, hlast⟩ :=
      foldSave_agg_present rest (save_message_to_mongo db u now Fault.ok)
        ⟨c, uid, strOr u.effective_user.username "",
          pyStrip u.effective_user.full_name, m.date.getD now,
          m.date.getD now, 1⟩ c uid now hall1 hfresh1 hdist1 hagg1
    have hlen : t.msg_count = (u :: rest).length := by
      rw [hcount]
      simp [List.length_cons]
      omega
    refine ⟨t, ?_, hlen, ?_, ?_, ?_⟩
    · unfold foldSave at ht ⊢
      rw [List.foldl_cons]
      exact ht
    · rw [hlen, List.dedup_eq_self.mpr hnodup, List.length_map]
    · rw [hfirst]
      simp [updTs, hm]
    · cases rest with
      | nil =>
        rw [hlast]
        simp [updTs, hm, List.getLast_singleton]
      | cons r rs =>
        rw [hlast]
        have hx := List.getLast?_eq_getLast_of_ne_nil (List.cons_ne_nil r rs)
        rw [hx]
        have hgl : (u :: r :: rs).getLast hne = (r :: rs).getLast
            (List.cons_ne_nil r rs) := List.getLast_cons (List.cons_ne_nil r rs)
        rw [hgl]
        rfl

/-- C4 (amended): every fault-free save preserves the count invariant —
each actor pair's total aggregate `msg_count` equals the number of stored
Event rows for that pair — and preserves `first_seen ≤ last_seen` provided
the incoming event's `occurred_at` is not earlier than the pair's recorded
`first_seen` (without that proviso the order part fails, see the
counterexample). -/
theorem c4_invariants_preserved (db : DB) (u : Update) (now : Int)
    (h1 : CountInv db) (h2 : OrderInv db)
    (h3 : ∀ s ∈ db.userstats, s.chat_id = u.effective_chat.id →
      s.user_id = u.effective_user.id → s.first_seen ≤ updTs u now) :
    CountInv (save_message_to_mongo db u now Fault.ok) ∧
    OrderInv (save_message_to_mongo db u now Fault.ok) := by
  cases hst : storable u with
  | false =>
    rw [save_not_storable db u now Fault.ok hst]
    exact ⟨h1, h2⟩
  | true =>
    obtain ⟨m, hm, hsvc, hgrp⟩ := (storable_iff u).mp hst
    cases hkey : hasKey db u.effective_chat.id m.message_id with
    | true =>
      rw [save_key_present db u m now Fault.ok hm hkey]
      exact ⟨h1, h2⟩
    | false =>
      have hdb1 := save_fresh db u m now hm hsvc hgrp hkey
      constructor
      · intro c uid
        rw [hdb1]
        unfold rowsForPair
        simp only [List.countP_append]
        by_cases hpair : c = u.effective_chat.id ∧ uid = u.effective_user.id
        · obtain ⟨hc, hu⟩ := hpair
          subst hc
          subst hu
          rw [aggTotal_upsert_same]
          have hbase := h1 u.effective_chat.id u.effective_user.id
          unfold rowsForPair at hbase
          rw [hbase]
          simp [mkDoc, List.countP_cons]
        · rw [aggTotal_upsert_other db.userstats u.effective_chat.id
            u.effective_user.id _ _ _ c uid hpair]
          have hbase := h1 c uid
          unfold rowsForPair at hbase
          rw [hbase]
          have hdoc : ¬ ((mkDoc u m now).chat_id = c ∧
              (mkDoc u m now).user_id = uid) := by
            simp only [mkDoc]
            intro hp
            exact hpair ⟨hp.1.symm, hp.2.symm⟩
          simp [List.countP_cons, hdoc]
      · intro s hs
        rw [hdb1] at hs
        rcases mem_upsert _ _ _ _ _ _ s hs with ⟨w, hw, hsw, hwc, hwu⟩
          | hmem | hnew
        · have hfs := h3 w hw hwc hwu
          rw [hsw]
          simp only [applyUpsert]
          simpa [updTs, hm] using hfs
        · exact h2 s hmem
        · rw [hnew]

/-- Helper for C6: when an update's message text is a recognized command
(`/start` or `/stats`), the command block sends exactly the corresponding
reply, computed against the store as it stands. -/
theorem commandReplies_cmd (d : DB) (u : Update) (m : Msg) (t : String)
    (hm : u.message = some m) (ht : m.text = some t)
    (hc : t = "/start" ∨ t = "/stats") :
    commandReplies d u = [cmdReply d u.effective_chat.id t] := by
  have h1 : pyStrip "/start" = "/start" := by decide
  have h2 : pyStrip "/stats" = "/stats" := by decide
  rcases hc with rfl | rfl
  · simp [commandReplies, hm, ht, strTruthy, strOr, h1, cmdReply]
  · simp [commandReplies, hm, ht, strTruthy, strOr, h2, cmdReply]

/-- C6: under the log-only-group-origins policy, a batch holding one
direct-message event and one group event, each carrying a `/start` or
`/stats` command, stores only the group event, yet both commands are
answered with their replies (`/start`: the static status message; `/stats`:
the stats snapshot) — command handling runs before and independently of the
logging policy. -/
theorem c6_policy_exempt_commands (db : DB) (udm ug : Update) (mdm mg : Msg)
    (now : Int) (tdm tg : String)
    (h1 : udm.message = some mdm) (h2 : mdm.text = some tdm)
    (hdm : tdm = "/start" ∨ tdm = "/stats")
    (h3 : udm.effective_chat.type = "private")
    (h4 : ug.message = some mg) (h5 : mg.text = some tg)
    (hgc : tg = "/start" ∨ tg = "/stats")
    (h6 : ug.effective_chat.type = "group")
    (h7 : is_service_message mg = false)
    (h8 : hasKey db ug.effective_chat.id mg.message_id = false) :
    (processEvents db [udm, ug] now [Fault.ok, Fault.ok]).1.messages
      = db.messages ++ [mkDoc ug mg now] ∧
    Effect.reply (cmdReply db udm.effective_chat.id tdm)
      ∈ (processEvents db [udm, ug] now [Fault.ok, Fault.ok]).2 ∧
    Effect.reply (cmdReply db ug.effective_chat.id tg)
      ∈ (processEvents db [udm, ug] now [Fault.ok, Fault.ok]).2 := by
  have hsdm : save_message_to_mongo db udm now Fault.ok = db := by
    apply save_not_storable
    simp [storable, h1, is_group_chat, h3]
  have hsg := save_fresh db ug mg now h4 h7 (by simp [is_group_chat, h6]) h8
  have hcdm := commandReplies_cmd db udm mdm tdm h1 h2 hdm
  have hcg := commandReplies_cmd db ug mg tg h4 h5 hgc
  have hpe : processEvents db [udm, ug] now [Fault.ok, Fault.ok]
      = (save_message_to_mongo db ug now Fault.ok,
         [Effect.reply (cmdReply db udm.effective_chat.id tdm),
          Effect.saveAttempt udm.update_id,
          Effect.reply (cmdReply db ug.effective_chat.id tg),
          Effect.saveAttempt ug.update_id]) := by
    simp [processEvents, hsdm, hcdm, hcg]
  rw [hpe]
  refine ⟨?_, ?_, ?_⟩
  · rw [hsg]
  · simp
  · simp

/-- Witness for C6 at a concrete private `/stats` and group `/start`. -/
theorem c6_witness :
    uStatsPriv.effective_chat.type = "private" ∧
    ((processEvents dbEmpty [uStatsPriv, uStartGrp] 0
        [Fault.ok, Fault.ok]).1.messages
      = dbEmpty.messages ++ [mkDoc uStartGrp (mkMsg 2 60 "/start") 0] ∧
    Effect.reply (cmdReply dbEmpty uStatsPriv.effective_chat.id "/stats")
      ∈ (processEvents dbEmpty [uStatsPriv, uStartGrp] 0
          [Fault.ok, Fault.ok]).2 ∧
    Effect.reply (cmdReply dbEmpty uStartGrp.effective_chat.id "/start")
      ∈ (processEvents dbEmpty [uStatsPriv, uStartGrp] 0
          [Fault.ok, Fault.ok]).2) :=
  ⟨rfl, c6_policy_exempt_commands dbEmpty uStatsPriv uStartGrp
    (mkMsg 1 50 "/stats") (mkMsg 2 60 "/start") 0 "/stats" "/start"
    rfl rfl (Or.inr rfl) rfl rfl rfl (Or.inl rfl) rfl rfl (by decide)⟩

/-- Witness for C2: key (1,5) delivered once, replicated twice more, plus a
differing same-key payload, on an empty store. -/
theorem c2_witness :
    hasKey dbEmpty uDupA.effective_chat.id (mkMsg 5 100 "a").message_id
        = false ∧
    (rowsWithKey
        (foldSave (save_message_to_mongo dbEmpty uDupA 0 Fault.ok)
          (List.replicate 2 uDupA) 0)
        uDupA.effective_chat.id (mkMsg 5 100 "a").message_id = 1 ∧
    aggTotal
        (foldSave (save_message_to_mongo dbEmpty uDupA 0 Fault.ok)
          (List.replicate 2 uDupA) 0).userstats
        uDupA.effective_chat.id uDupA.effective_user.id
      = aggTotal dbEmpty.userstats uDupA.effective_chat.id
          uDupA.effective_user.id + 1 ∧
    save_message_to_mongo (save_message_to_mongo dbEmpty uDupA 0 Fault.ok)
        uDupB 0 Fault.ok
      = save_message_to_mongo dbEmpty uDupA 0 Fault.ok) :=
  ⟨rfl, c2_duplicate_suppression dbEmpty uDupA uDupB
    (mkMsg 5 100 "a") (mkMsg 5 100 "b") 0 2
    rfl rfl rfl rfl rfl rfl rfl⟩

/-- Witness for the amended C3: two accepted events (timestamps 100 then
200) for pair (1,2) yield count 2, `first_seen = 100`, `last_seen = 200`. -/
theorem c3_witness :
    ∃ t, aggFind (foldSave dbEmpty [uDupA, uSeqB] 0).userstats 1 2 = some t ∧
      t.msg_count = 2 ∧ t.first_seen = 100 ∧ t.last_seen = 200 := by
  obtain ⟨t, ht, hc, _, hf, hl⟩ := c3_aggregate_fields [uDupA, uSeqB] dbEmpty
    1 2 0 (by decide) (by decide) (by decide) (by decide) rfl
  refine ⟨t, ht, ?_, ?_, ?_⟩
  · rw [hc]
    rfl
  · rw [hf]
    decide
  · rw [hl]
    decide

/-- Witness for the amended C4 on an empty store and one group message. -/
theorem c4_witness :
    CountInv dbEmpty ∧
    (CountInv (save_message_to_mongo dbEmpty uDupA 0 Fault.ok) ∧
      OrderInv (save_message_to_mongo dbEmpty uDupA 0 Fault.ok)) :=
  ⟨fun _ _ => rfl,
    c4_invariants_preserved dbEmpty uDupA 0 (fun _ _ => rfl)
      (fun s hs => absurd hs (List.not_mem_nil s))
      (fun s hs => absurd hs (List.not_mem_nil s))⟩
